import Mathlib

/-!
Shallow embedding of the voice-console page of the ACADEXA frontend
(src/frontend/src/VoiceConsolePage.tsx) and proofs of its specified
properties: the bounded history buffer, the command dispatch lifecycle,
failure classification, and the result-shape renderer.

Conventions of the embedding:
 - Machine state is the collection of React useState cells of the page
   (ConsoleState).  Each event handler becomes a pure state transformer
   returning the next state together with the network request it issues
   (an Option String: the text posted to /voice/command), so that the
   absence of a network call is a provable fact.
 - A backend response object is modelled by the fields the page reads
   (info, parsed.intent, results, results_type).  A missing field, a
   null field, and for results also a non-array value, are all modelled
   as none.
 - JavaScript String.prototype.trim is embedded as trimText below
   (strip leading and trailing whitespace); the built-in String.trim of
   the proof assistant is avoided only because it does not reduce in
   the kernel, not for any semantic difference on these inputs.
 - makeId is a random id generator; it is modelled by passing the
   generated id as an explicit argument, with freshness as a hypothesis
   where the code relies on it.
-/

/-- JavaScript String.prototype.trim: drop leading and trailing
whitespace from the text. -/
def trimText (s : String) : String :=
  ⟨((s.data.dropWhile Char.isWhitespace).reverse.dropWhile Char.isWhitespace).reverse⟩

/-- One record in a results array: a JSON object, modelled as an
association list from field name to rendered field value. -/
abbrev Row := List (String × String)

/-- The backend response shape as read by the page: info, parsed.intent,
results, results_type.  none models a missing or null field (and for
results also a non-array value). -/
structure Resp where
  info : Option String
  parsedIntent : Option String
  results : Option (List Row)
  results_type : Option String
deriving DecidableEq, Repr

/-- HistoryItem of VoiceConsolePage.tsx: `{ id, text, at, response?, error? }`.
The `at` field is renamed atTime (reserved word).  none for response or
error models the field being absent or null. -/
structure HistoryItem where
  id : String
  text : String
  atTime : String
  response : Option Resp
  error : Option String
deriving DecidableEq, Repr

/-- A partial update `Partial<HistoryItem>` as used by updateHistory: an
outer some means the patch contains the field, the inner option is the
new value. -/
structure HistoryPatch where
  response : Option (Option Resp)
  error : Option (Option String)
deriving DecidableEq, Repr

/-- The object spread `{ ...h, ...patch }`: fields present in the patch
replace those of the entry. -/
def applyPatch (p : HistoryPatch) (h : HistoryItem) : HistoryItem :=
  { h with
    response := p.response.getD h.response
    error := p.error.getD h.error }

/-- pushHistory (lines 159-164): prepend the new item and keep the first
10 entries (`[item, ...prev].slice(0, 10)`). -/
def pushHistory (item : HistoryItem) (prev : List HistoryItem) : List HistoryItem :=
  (item :: prev).take 10

/-- updateHistory (lines 166-170): patch every entry whose id matches
(`prev.map ((h) => h.id === id ? \x7b ...h, ...patch \x7d : h)`). -/
def updateHistory (id : String) (p : HistoryPatch) (prev : List HistoryItem) :
    List HistoryItem :=
  prev.map (fun h => if h.id = id then applyPatch p h else h)

/-- The useState cells of VoiceConsolePage that the dispatcher and the
renderer touch. -/
structure ConsoleState where
  text : String
  loading : Bool
  error : Option String
  responseJson : Option Resp
  history : List HistoryItem
deriving DecidableEq, Repr

/-- The failure shapes distinguished by the catch block of sendCommand
(lines 194-216): an HTTP error response (err.response, with status and
the rendered body), a request that got no response (err.request), and
any other thrown error (err.message). -/
inductive NetFailure where
  | httpError (status : Nat) (body : String)
  | noResponse
  | jsError (message : String)
deriving DecidableEq, Repr

/-- The four failure classes of the spec taxonomy. -/
inductive ErrClass where
  | unauthenticated
  | serverError
  | unreachable
  | clientError
deriving DecidableEq, Repr

/-- Which class the catch block of sendCommand assigns to a failure:
status 401, any other HTTP error, no response, anything else. -/
def classOf : NetFailure → ErrClass
  | .httpError status _ => if status = 401 then .unauthenticated else .serverError
  | .noResponse => .unreachable
  | .jsError _ => .clientError

/-- The user-facing message the catch block of sendCommand builds for a
failure (lines 197-213). -/
def errorMessage : NetFailure → String
  | .httpError status body =>
      if status = 401 then "Not authenticated. Please login first."
      else "Error " ++ toString status ++ ": " ++ body
  | .noResponse => "No response from server. Is backend running on 127.0.0.1:8000?"
  | .jsError m => "Unexpected error: " ++ m

/-- How the awaited request of sendCommand ends: a response object, or a
failure. -/
inductive ReqOutcome where
  | success (data : Resp)
  | failure (f : NetFailure)
deriving DecidableEq, Repr

/-- The synchronous prefix of sendCommand (lines 172-188): trim the
override or current text, return unchanged (no request) when empty,
otherwise push the pending history entry, set loading, clear error and
responseJson, and issue the request.  newId stands for the makeId()
call, now for the timestamp. -/
def sendCommandStart (newId now : String) (overrideText : Option String)
    (s : ConsoleState) : ConsoleState × Option String :=
  let command := trimText (overrideText.getD s.text)
  if command = "" then (s, none)
  else
    ({ s with
        history := pushHistory ⟨newId, command, now, none, none⟩ s.history
        loading := true
        error := none
        responseJson := none },
     some command)

/-- The continuation of sendCommand after the awaited request settles
(lines 190-219): on success set responseJson, patch the entry with
`\x7b response: res.data, error: null \x7d` and clear the input; on failure
set the error message and patch the entry with `\x7b error: msg \x7d`; in both
cases clear loading. -/
def sendCommandSettle (historyId : String) (outcome : ReqOutcome)
    (s : ConsoleState) : ConsoleState :=
  match outcome with
  | .success data =>
      { s with
          responseJson := some data
          history := updateHistory historyId ⟨some (some data), some none⟩ s.history
          text := ""
          loading := false }
  | .failure f =>
      let msg := errorMessage f
      { s with
          error := some msg
          history := updateHistory historyId ⟨none, some (some msg)⟩ s.history
          loading := false }

/-- handleSubmit (lines 222-226): guard on the trimmed current text,
then run sendCommand with no override. -/
def handleSubmit (newId now : String) (s : ConsoleState) : ConsoleState × Option String :=
  if trimText s.text = "" then (s, none)
  else sendCommandStart newId now none s

/-- The View button of a history entry (lines 576-584): disabled while
loading or when the entry has no stored response; otherwise it only
sets responseJson to the stored response.  It never issues a request. -/
def viewEntry (h : HistoryItem) (s : ConsoleState) : ConsoleState × Option String :=
  if s.loading || h.response.isNone then (s, none)
  else ({ s with responseJson := h.response }, none)

/-- The Run button of a history entry (lines 567-575): disabled while
loading; otherwise it calls sendCommand with the stored text as
override. -/
def runEntry (h : HistoryItem) (newId now : String) (s : ConsoleState) :
    ConsoleState × Option String :=
  if s.loading then (s, none) else sendCommandStart newId now (some h.text) s

/-- Folding a whole sequence of submissions into the history buffer,
oldest submission first, starting from the empty history. -/
def pushAll (items : List HistoryItem) : List HistoryItem :=
  items.foldl (fun hist it => pushHistory it hist) []

/-- The intent the page displays: `responseJson.parsed?.intent || "unknown"`
(a missing chain or an empty string is falsy and yields "unknown"). -/
def intentOf (r : Resp) : String :=
  match r.parsedIntent with
  | some s => if s = "" then "unknown" else s
  | none => "unknown"

/-- The possible outputs of renderResultsTable: one entity-specific
table per known results_type tag, or the generic pretty-printed JSON
dump of the rows. -/
inductive RenderedResults where
  | studentsTable (rows : List Row)
  | coursesTable (rows : List Row)
  | teachersTable (rows : List Row)
  | enrollmentsTable (rows : List Row)
  | genericDump (rows : List Row)
deriving DecidableEq, Repr

/-- The rows carried by a rendered table or dump. -/
def RenderedResults.rowsOf : RenderedResults → List Row
  | .studentsTable rows => rows
  | .coursesTable rows => rows
  | .teachersTable rows => rows
  | .enrollmentsTable rows => rows
  | .genericDump rows => rows

/-- renderResultsTable (lines 235-373): nothing when results is missing,
not an array, or empty; otherwise dispatch on results_type to the four
entity tables, falling back to the generic JSON dump. -/
def renderResultsTable (r : Resp) : Option RenderedResults :=
  match r.results with
  | none => none
  | some rows =>
    if rows.isEmpty then none
    else if r.results_type = some "students" then some (.studentsTable rows)
    else if r.results_type = some "courses" then some (.coursesTable rows)
    else if r.results_type = some "teachers" then some (.teachersTable rows)
    else if r.results_type = some "enrollments" then some (.enrollmentsTable rows)
    else some (.genericDump rows)

/-- What the results section shows: the no-records message, or the div
wrapping whatever renderResultsTable produced. -/
inductive SectionView where
  | noRecords
  | tableDiv (t : Option RenderedResults)
deriving DecidableEq, Repr

/-- renderResultsSection (lines 375-393): with missing or empty results,
show the no-records message for a known intent and nothing for the
unknown intent; with non-empty results, wrap renderResultsTable. -/
def renderResultsSection (r : Resp) : Option SectionView :=
  match r.results with
  | none => if intentOf r ≠ "unknown" then some .noRecords else none
  | some rows =>
    if rows.isEmpty then
      if intentOf r ≠ "unknown" then some .noRecords else none
    else some (.tableDiv (renderResultsTable r))

/-- The response card as rendered for a settled response (lines 603-618):
the info line when info is truthy, the displayed intent, and the
results section. -/
structure ResponseView where
  infoLine : Option String
  intentLine : String
  resultsSection : Option SectionView
deriving DecidableEq, Repr

/-- Render the response card for a response object. -/
def renderResponseCard (r : Resp) : ResponseView :=
  { infoLine := match r.info with
      | some s => if s = "" then none else some s
      | none => none
    intentLine := intentOf r
    resultsSection := renderResultsSection r }

/-- The roles of the Me record. -/
inductive Role where
  | admin
  | student
  | teacher
  | hod
deriving DecidableEq, Repr

/-- quickCommands (lines 396-424): the suggested example commands, by
the role of the logged-in user (none while me is not loaded); admin,
hod and unloaded fall through to the same list. -/
def quickCommands (role : Option Role) : List String :=
  match role with
  | some .student =>
      ["show my gpa", "which courses am I enrolled in", "my enrollments", "list courses"]
  | some .teacher =>
      ["which courses am I teaching", "show my enrollments", "list courses", "list students"]
  | _ =>
      ["list students", "list teachers", "list courses", "list enrollments for student 1"]

/-! ### Helper lemmas about the history buffer -/

theorem pushHistory_eq_cons_take (item : HistoryItem) (prev : List HistoryItem) :
    pushHistory item prev = item :: prev.take 9 := rfl

theorem pushHistory_length_le (item : HistoryItem) (prev : List HistoryItem) :
    (pushHistory item prev).length ≤ 10 := by
  simp only [pushHistory, List.length_take]
  omega

theorem take_append_take {α : Type} (l m : List α) (n : Nat) :
    (l ++ m.take n).take n = (l ++ m).take n := by
  rw [List.take_append_eq_append_take, List.take_append_eq_append_take, List.take_take]
  congr 1
  congr 1
  omega

theorem foldl_pushHistory (items : List HistoryItem) :
    ∀ start : List HistoryItem, start.length ≤ 10 →
      items.foldl (fun hist it => pushHistory it hist) start =
        (items.reverse ++ start).take 10 := by
  induction items with
  | nil =>
    intro start hs
    simpa using (List.take_of_length_le hs).symm
  | cons i rest ih =>
    intro start hs
    rw [List.foldl_cons, ih (pushHistory i start) (pushHistory_length_le i start)]
    show (rest.reverse ++ (i :: start).take 10).take 10 = _
    rw [take_append_take, List.reverse_cons, List.append_assoc]
    rfl

theorem pushAll_eq (items : List HistoryItem) :
    pushAll items = items.reverse.take 10 := by
  have h := foldl_pushHistory items [] (by simp)
  simpa [pushAll] using h

/-- C1: the history buffer never exceeds 10 entries; each submission
puts its entry at the front; from a full buffer the next insertion
evicts the oldest entry; and after an 11th submission no entry with the
id created by the 1st submission is still present. -/
theorem voice_history_capacity :
    (∀ items : List HistoryItem, (pushAll items).length ≤ 10) ∧
    (∀ (it : HistoryItem) (prev : List HistoryItem),
        (pushHistory it prev).head? = some it) ∧
    (∀ (it : HistoryItem) (prev : List HistoryItem), prev.length = 10 →
        pushHistory it prev = it :: prev.dropLast) ∧
    (∀ (first : HistoryItem) (rest : List HistoryItem), rest.length = 10 →
        (∀ it ∈ rest, it.id ≠ first.id) →
        ∀ it ∈ pushAll (first :: rest), it.id ≠ first.id) := by
  refine ⟨?_, ?_, ?_, ?_⟩
  · intro items
    rw [pushAll_eq]
    simp only [List.length_take]
    omega
  · intro it prev
    rw [pushHistory_eq_cons_take]
    rfl
  · intro it prev hlen
    rw [pushHistory_eq_cons_take, List.dropLast_eq_take, hlen]
  · intro first rest hlen hids it hmem
    rw [pushAll_eq, List.reverse_cons, List.take_append_eq_append_take] at hmem
    have hrl : rest.reverse.length = 10 := by simpa using hlen
    rw [List.take_of_length_le (le_of_eq hrl), hrl] at hmem
    simp only [Nat.sub_self, List.take_zero, List.append_nil, List.mem_reverse] at hmem
    exact hids it hmem

/-- Concrete history entry used by the closed witnesses below. -/
def mkItem (n : Nat) : HistoryItem :=
  ⟨toString n, "list students", "t0", none, none⟩

theorem voice_history_capacity_witness :
    ((List.range 10).map mkItem).length = 10 ∧
    pushHistory (mkItem 10) ((List.range 10).map mkItem) =
      mkItem 10 :: ((List.range 10).map mkItem).dropLast ∧
    (∀ it ∈ pushAll (mkItem 10 :: (List.range 10).map mkItem), it.id ≠ (mkItem 10).id) := by
  refine ⟨by decide, ?_, ?_⟩
  · exact voice_history_capacity.2.2.1 (mkItem 10) _ (by decide)
  · exact voice_history_capacity.2.2.2 (mkItem 10) _ (by decide) (by decide)

/-! ### Helper lemmas about updateHistory and id-fresh entries -/

theorem applyPatch_id (p : HistoryPatch) (h : HistoryItem) :
    (applyPatch p h).id = h.id := rfl

theorem filter_cons_fresh (id : String) (item : HistoryItem) (rest : List HistoryItem)
    (hit : item.id = id) (hrest : ∀ g ∈ rest, g.id ≠ id) :
    (item :: rest).filter (fun e => e.id = id) = [item] := by
  rw [List.filter_cons, if_pos (by simp [hit])]
  rw [List.filter_eq_nil_iff.mpr (fun a ha => by simp [hrest a ha])]

theorem updateHistory_fresh (id : String) (p : HistoryPatch) (l : List HistoryItem)
    (hl : ∀ g ∈ l, g.id ≠ id) : updateHistory id p l = l := by
  induction l with
  | nil => rfl
  | cons a t ih =>
    simp only [updateHistory, List.map_cons]
    rw [if_neg (hl a (by simp))]
    have := ih (fun g hg => hl g (by simp [hg]))
    simp only [updateHistory] at this
    rw [this]

theorem updateHistory_cons_fresh (id : String) (p : HistoryPatch) (item : HistoryItem)
    (rest : List HistoryItem) (hit : item.id = id) (hrest : ∀ g ∈ rest, g.id ≠ id) :
    updateHistory id p (item :: rest) = applyPatch p item :: rest := by
  simp only [updateHistory, List.map_cons]
  rw [if_pos hit]
  have := updateHistory_fresh id p rest hrest
  simp only [updateHistory] at this
  rw [this]

theorem fresh_take {l : List HistoryItem} {id : String}
    (h : ∀ g ∈ l, g.id ≠ id) (n : Nat) :
    ∀ g ∈ l.take n, g.id ≠ id :=
  fun g hg => h g (List.take_subset n l hg)

/-- C2: a submit with non-empty trimmed text creates exactly one new
history entry, pending (neither response nor error populated); when the
request settles, that entry is patched in place so that on success
exactly the response and on failure exactly the error is populated, and
never both. -/
theorem voice_submit_lifecycle (s : ConsoleState) (ov : Option String) (newId now : String)
    (hcmd : trimText (ov.getD s.text) ≠ "")
    (hfresh : ∀ g ∈ s.history, g.id ≠ newId) :
    ((sendCommandStart newId now ov s).1.history.filter (fun e => e.id = newId) =
      [⟨newId, trimText (ov.getD s.text), now, none, none⟩]) ∧
    (∀ data : Resp,
      (sendCommandSettle newId (.success data)
          (sendCommandStart newId now ov s).1).history.filter (fun e => e.id = newId) =
        [⟨newId, trimText (ov.getD s.text), now, some data, none⟩]) ∧
    (∀ f : NetFailure,
      (sendCommandSettle newId (.failure f)
          (sendCommandStart newId now ov s).1).history.filter (fun e => e.id = newId) =
        [⟨newId, trimText (ov.getD s.text), now, none, some (errorMessage f)⟩]) ∧
    (∀ outcome : ReqOutcome,
      ∀ e ∈ (sendCommandSettle newId outcome (sendCommandStart newId now ov s).1).history,
        e.id = newId → e.response.isSome ≠ e.error.isSome) := by
  have hstart : (sendCommandStart newId now ov s).1 =
      { s with
          history :=
            pushHistory ⟨newId, trimText (ov.getD s.text), now, none, none⟩ s.history
          loading := true
          error := none
          responseJson := none } := by
    simp only [sendCommandStart]
    rw [if_neg hcmd]
  have hhist : (sendCommandStart newId now ov s).1.history =
      (⟨newId, trimText (ov.getD s.text), now, none, none⟩ : HistoryItem) ::
        s.history.take 9 := by
    rw [hstart]
    exact pushHistory_eq_cons_take _ _
  have hfresh9 : ∀ g ∈ s.history.take 9, g.id ≠ newId := fresh_take hfresh 9
  have hsucc : ∀ data : Resp,
      (sendCommandSettle newId (.success data)
          (sendCommandStart newId now ov s).1).history =
        (⟨newId, trimText (ov.getD s.text), now, some data, none⟩ : HistoryItem) ::
          s.history.take 9 := by
    intro data
    show updateHistory newId _ (sendCommandStart newId now ov s).1.history = _
    rw [hhist, updateHistory_cons_fresh newId _ _ _ rfl hfresh9]
    rfl
  have hfail : ∀ f : NetFailure,
      (sendCommandSettle newId (.failure f)
          (sendCommandStart newId now ov s).1).history =
        (⟨newId, trimText (ov.getD s.text), now, none,
            some (errorMessage f)⟩ : HistoryItem) :: s.history.take 9 := by
    intro f
    show updateHistory newId _ (sendCommandStart newId now ov s).1.history = _
    rw [hhist, updateHistory_cons_fresh newId _ _ _ rfl hfresh9]
    rfl
  refine ⟨?_, ?_, ?_, ?_⟩
  · rw [hhist]
    exact filter_cons_fresh newId _ _ rfl hfresh9
  · intro data
    rw [hsucc data]
    exact filter_cons_fresh newId _ _ rfl hfresh9
  · intro f
    rw [hfail f]
    exact filter_cons_fresh newId _ _ rfl hfresh9
  · intro outcome e he hid
    cases outcome with
    | success data =>
      rw [hsucc data] at he
      rcases List.mem_cons.mp he with rfl | htail
      · simp
      · exact absurd hid (hfresh9 e htail)
    | failure f =>
      rw [hfail f] at he
      rcases List.mem_cons.mp he with rfl | htail
      · simp
      · exact absurd hid (hfresh9 e htail)

/-- Concrete initial state used by the closed witnesses below. -/
def emptyConsole : ConsoleState := ⟨"", false, none, none, []⟩

theorem voice_submit_lifecycle_witness :
    (sendCommandStart "a1" "t1" (some "list students") emptyConsole).1.history.filter
        (fun e => e.id = "a1") =
      [⟨"a1", trimText "list students", "t1", none, none⟩] := by
  have h := voice_submit_lifecycle emptyConsole (some "list students") "a1" "t1"
    (by decide) (by intro g hg; simp [emptyConsole] at hg)
  exact h.1

/-- C3: submitting text that trims to empty leaves the whole state
unchanged and issues no request, both through sendCommand directly
(typed, quick command or Run override) and through the handleSubmit
guard. -/
theorem voice_empty_input_rejected (newId now : String) (s : ConsoleState) :
    (∀ ov : Option String, trimText (ov.getD s.text) = "" →
        sendCommandStart newId now ov s = (s, none)) ∧
    (trimText s.text = "" → handleSubmit newId now s = (s, none)) := by
  constructor
  · intro ov h
    simp only [sendCommandStart]
    rw [if_pos h]
  · intro h
    simp only [handleSubmit]
    rw [if_pos h]

/-- Concrete whitespace-only state used by the closed witness below. -/
def wsConsole : ConsoleState := ⟨"   ", false, none, none, []⟩

theorem voice_empty_input_rejected_witness :
    sendCommandStart "a1" "t1" none wsConsole = (wsConsole, none) ∧
    handleSubmit "a1" "t1" wsConsole = (wsConsole, none) := by
  have h := voice_empty_input_rejected "a1" "t1" wsConsole
  exact ⟨h.1 none (by decide), h.2 (by decide)⟩

/-! ### Helper lemmas about message prefixes -/

theorem data_head_append (p : String) (c : Char) (hp : p.data.head? = some c)
    (q : String) : (p ++ q).data.head? = some c := by
  rw [String.data_append]
  cases hd : p.data with
  | nil => rw [hd] at hp; cases hp
  | cons a as =>
    rw [hd] at hp
    simp only [List.head?_cons, Option.some.injEq] at hp
    simp [hp]

theorem string_ne_of_head {s t : String} (h : s.data.head? ≠ t.data.head?) : s ≠ t :=
  fun he => h (by rw [he])

/-- C4: every failure is classified into exactly one of the four cases
(401, other HTTP error, no response, other exception); the code builds
the documented user-facing message for each; failures in different
classes always produce different messages; and no failure is swallowed:
settling with a failure stores the message both in the error banner and
in the matching history entry. -/
theorem voice_failure_classification :
    (∀ b, errorMessage (.httpError 401 b) = "Not authenticated. Please login first.") ∧
    (∀ st b, st ≠ 401 →
        errorMessage (.httpError st b) = "Error " ++ toString st ++ ": " ++ b) ∧
    (errorMessage .noResponse =
        "No response from server. Is backend running on 127.0.0.1:8000?") ∧
    (∀ m, errorMessage (.jsError m) = "Unexpected error: " ++ m) ∧
    (∀ f g : NetFailure, classOf f ≠ classOf g → errorMessage f ≠ errorMessage g) ∧
    (∀ (f : NetFailure) (id : String) (s : ConsoleState),
        (sendCommandSettle id (.failure f) s).error = some (errorMessage f) ∧
        ∀ e ∈ (sendCommandSettle id (.failure f) s).history, e.id = id →
          e.error = some (errorMessage f)) := by
  have hE : ∀ (st : Nat) (b : String),
      (("Error " : String) ++ toString st ++ ": " ++ b).data.head? = some 'E' :=
    fun st b =>
      data_head_append _ _
        (data_head_append _ _
          (data_head_append _ _
            (show ("Error " : String).data.head? = some 'E' from rfl) _) _) _
  have hU : ∀ m : String,
      (("Unexpected error: " : String) ++ m).data.head? = some 'U' :=
    fun m =>
      data_head_append _ _
        (show ("Unexpected error: " : String).data.head? = some 'U' from rfl) _
  refine ⟨fun b => by simp [errorMessage], fun st b h => by simp [errorMessage, h],
    rfl, fun m => rfl, ?_, ?_⟩
  · intro f g hne
    cases f with
    | httpError st b =>
      cases g with
      | httpError st2 b2 =>
        by_cases h1 : st = 401 <;> by_cases h2 : st2 = 401
        · simp [classOf, h1, h2] at hne
        · simp only [errorMessage, if_pos h1, if_neg h2]
          exact string_ne_of_head (by rw [hE st2 b2]; decide)
        · simp only [errorMessage, if_neg h1, if_pos h2]
          exact string_ne_of_head (by rw [hE st b]; decide)
        · simp [classOf, h1, h2] at hne
      | noResponse =>
        by_cases h1 : st = 401
        · simp only [errorMessage, if_pos h1]
          decide
        · simp only [errorMessage, if_neg h1]
          exact string_ne_of_head (by rw [hE st b]; decide)
      | jsError m =>
        by_cases h1 : st = 401
        · simp only [errorMessage, if_pos h1]
          exact string_ne_of_head (by rw [hU m]; decide)
        · simp only [errorMessage, if_neg h1]
          exact string_ne_of_head (by rw [hE st b, hU m]; decide)
    | noResponse =>
      cases g with
      | httpError st b =>
        by_cases h1 : st = 401
        · simp only [errorMessage, if_pos h1]
          decide
        · simp only [errorMessage, if_neg h1]
          exact string_ne_of_head (by rw [hE st b]; decide)
      | noResponse => simp [classOf] at hne
      | jsError m =>
        simp only [errorMessage]
        exact string_ne_of_head (by rw [hU m]; decide)
    | jsError m =>
      cases g with
      | httpError st b =>
        by_cases h1 : st = 401
        · simp only [errorMessage, if_pos h1]
          exact string_ne_of_head (by rw [hU m]; decide)
        · simp only [errorMessage, if_neg h1]
          exact string_ne_of_head (by rw [hU m, hE st b]; decide)
      | noResponse =>
        simp only [errorMessage]
        exact string_ne_of_head (by rw [hU m]; decide)
      | jsError m2 => simp [classOf] at hne
  · intro f id s
    refine ⟨rfl, ?_⟩
    intro e he hid
    have he2 : e ∈ updateHistory id ⟨none, some (some (errorMessage f))⟩ s.history := he
    rcases List.mem_map.mp he2 with ⟨a, ha, rfl⟩
    by_cases hc : a.id = id
    · simp [hc, applyPatch]
    · rw [if_neg hc] at hid ⊢
      exact absurd hid hc

theorem voice_failure_classification_witness :
    errorMessage (.httpError 500 "boom") = "Error " ++ toString 500 ++ ": " ++ "boom" ∧
    errorMessage (.httpError 401 "x") ≠ errorMessage (.httpError 500 "boom") ∧
    errorMessage (.httpError 500 "boom") ≠ errorMessage .noResponse ∧
    errorMessage .noResponse ≠ errorMessage (.jsError "oops") ∧
    (sendCommandSettle "a1" (.failure .noResponse) emptyConsole).error =
      some (errorMessage .noResponse) := by
  have h := voice_failure_classification
  refine ⟨h.2.1 500 "boom" (by decide), ?_, ?_, ?_,
    (h.2.2.2.2.2 .noResponse "a1" emptyConsole).1⟩
  · exact h.2.2.2.2.1 _ _ (by decide)
  · exact h.2.2.2.2.1 _ _ (by decide)
  · exact h.2.2.2.2.1 _ _ (by decide)

/-! ### Helper lemmas about the renderer -/

theorem renderResultsTable_rows (r : Resp) (t : RenderedResults)
    (h : renderResultsTable r = some t) :
    r.results = some t.rowsOf ∧ t.rowsOf ≠ [] := by
  obtain ⟨i0, p0, res0, t0⟩ := r
  cases res0 with
  | none => simp [renderResultsTable] at h
  | some rows =>
    unfold renderResultsTable at h
    dsimp only at h
    by_cases he : rows.isEmpty = true
    · rw [if_pos he] at h
      cases h
    · rw [if_neg he] at h
      have hne : rows ≠ [] := by
        cases rows
        · exact absurd rfl he
        · exact fun hx => List.noConfusion hx
      split_ifs at h <;> injection h with h2 <;> subst h2 <;>
        simp [RenderedResults.rowsOf, hne]

theorem renderResultsSection_table (r : Resp) (ot : Option RenderedResults)
    (h : renderResultsSection r = some (SectionView.tableDiv ot)) :
    ot = renderResultsTable r := by
  obtain ⟨i0, p0, res0, t0⟩ := r
  cases res0 with
  | none =>
    unfold renderResultsSection at h
    dsimp only at h
    split_ifs at h
    all_goals simp at h
  | some rows =>
    unfold renderResultsSection at h
    dsimp only at h
    by_cases he : rows.isEmpty = true
    · rw [if_pos he] at h
      split_ifs at h
      all_goals simp at h
    · rw [if_neg he] at h
      simp only [Option.some.injEq, SectionView.tableDiv.injEq] at h
      exact h.symm

/-- C5: for a response whose displayed intent is unknown and whose
results are missing or empty, the page still shows the guidance: the
info explanation appears in the response card, the suggested example
commands are non-empty for every role, the results section stays blank,
and no rendered table is ever empty. -/
theorem voice_unknown_intent_guidance (r : Resp) (role : Option Role) (s : String)
    (hintent : intentOf r = "unknown")
    (hinfo : r.info = some s) (hs : s ≠ "")
    (hres : r.results = none ∨ r.results = some []) :
    (renderResponseCard r).infoLine = some s ∧
    (renderResponseCard r).resultsSection = none ∧
    quickCommands role ≠ [] ∧
    (∀ (r2 : Resp) (t : RenderedResults),
        renderResultsSection r2 = some (SectionView.tableDiv (some t)) →
        t.rowsOf ≠ []) := by
  refine ⟨?_, ?_, ?_, ?_⟩
  · simp [renderResponseCard, hinfo, hs]
  · show renderResultsSection r = none
    unfold renderResultsSection
    rcases hres with h | h <;> rw [h] <;> simp [hintent]
  · rcases role with _ | r0
    · simp [quickCommands]
    · cases r0 <;> simp [quickCommands]
  · intro r2 t ht
    have h1 := renderResultsSection_table r2 (some t) ht
    exact (renderResultsTable_rows r2 t h1.symm).2

/-- Concrete unknown-intent response used by the closed witness below. -/
def unknownResp : Resp :=
  ⟨some "Could not understand this command.", some "unknown", some [], none⟩

theorem voice_unknown_intent_guidance_witness :
    (renderResponseCard unknownResp).infoLine =
      some "Could not understand this command." ∧
    (renderResponseCard unknownResp).resultsSection = none ∧
    quickCommands (some .admin) ≠ [] := by
  have h := voice_unknown_intent_guidance unknownResp (some .admin)
    "Could not understand this command." (by decide) rfl (by decide) (Or.inr rfl)
  exact ⟨h.1, h.2.1, h.2.2.1⟩

/-- C6: for a known (non-unknown) intent with missing or empty results,
the results section is exactly the no-records message and never a
table. -/
theorem voice_known_intent_no_records (r : Resp)
    (hintent : intentOf r ≠ "unknown")
    (hres : r.results = none ∨ r.results = some []) :
    renderResultsSection r = some SectionView.noRecords ∧
    (∀ ot, renderResultsSection r ≠ some (SectionView.tableDiv ot)) := by
  have h1 : renderResultsSection r = some SectionView.noRecords := by
    unfold renderResultsSection
    rcases hres with h | h <;> rw [h] <;> simp [hintent]
  refine ⟨h1, fun ot hot => ?_⟩
  rw [h1] at hot
  simp at hot

/-- Concrete zero-row students response used by the closed witness
below. -/
def emptyStudentsResp : Resp :=
  ⟨none, some "list_students", some [], some "students"⟩

theorem voice_known_intent_no_records_witness :
    renderResultsSection emptyStudentsResp = some SectionView.noRecords := by
  have h := voice_known_intent_no_records emptyStudentsResp (by decide) (Or.inr rfl)
  exact h.1

/-- C7: with a non-empty results array the renderer dispatches on
results_type: each of the four known tags yields its entity-specific
table over exactly those rows, any other or absent tag yields the
generic JSON dump, and the renderer always produces some output. -/
theorem voice_results_type_dispatch (r : Resp) (rows : List Row)
    (hres : r.results = some rows) (hne : rows ≠ []) :
    (r.results_type = some "students" →
        renderResultsTable r = some (.studentsTable rows)) ∧
    (r.results_type = some "courses" →
        renderResultsTable r = some (.coursesTable rows)) ∧
    (r.results_type = some "teachers" →
        renderResultsTable r = some (.teachersTable rows)) ∧
    (r.results_type = some "enrollments" →
        renderResultsTable r = some (.enrollmentsTable rows)) ∧
    (∀ tag, r.results_type = some tag →
        tag ∉ ["students", "courses", "teachers", "enrollments"] →
        renderResultsTable r = some (.genericDump rows)) ∧
    (r.results_type = none → renderResultsTable r = some (.genericDump rows)) ∧
    (renderResultsTable r).isSome = true := by
  have he : rows.isEmpty = false := by
    cases rows
    · exact absurd rfl hne
    · rfl
  refine ⟨?_, ?_, ?_, ?_, ?_, ?_, ?_⟩
  · intro htag
    simp [renderResultsTable, hres, he, htag]
  · intro htag
    simp [renderResultsTable, hres, he, htag]
  · intro htag
    simp [renderResultsTable, hres, he, htag]
  · intro htag
    simp [renderResultsTable, hres, he, htag]
  · intro tag htag hmem
    have h1 : tag ≠ "students" := fun hx => hmem (by simp [hx])
    have h2 : tag ≠ "courses" := fun hx => hmem (by simp [hx])
    have h3 : tag ≠ "teachers" := fun hx => hmem (by simp [hx])
    have h4 : tag ≠ "enrollments" := fun hx => hmem (by simp [hx])
    simp [renderResultsTable, hres, he, htag, h1, h2, h3, h4]
  · intro htag
    simp [renderResultsTable, hres, he, htag]
  · simp only [renderResultsTable, hres]
    rw [if_neg (by simp [he])]
    split_ifs <;> rfl

/-- Concrete one-row students response used by the closed witness
below. -/
def studentsResp : Resp :=
  ⟨none, some "list_students", some [[("id", "1"), ("name", "A")]], some "students"⟩

theorem voice_results_type_dispatch_witness :
    renderResultsTable studentsResp =
      some (.studentsTable [[("id", "1"), ("name", "A")]]) ∧
    (renderResultsTable studentsResp).isSome = true := by
  have h := voice_results_type_dispatch studentsResp
    [[("id", "1"), ("name", "A")]] rfl (by decide)
  exact ⟨h.1 rfl, h.2.2.2.2.2.2⟩

/-! ### Helper lemma about membership through updateHistory -/

theorem updateHistory_mem_of_ne (id : String) (p : HistoryPatch) (l : List HistoryItem)
    (g : HistoryItem) (hg : g ∈ updateHistory id p l) (hne : g.id ≠ id) : g ∈ l := by
  rcases List.mem_map.mp hg with ⟨a, ha, rfl⟩
  by_cases hc : a.id = id
  · rw [if_pos hc] at hne
    exact absurd hc hne
  · rw [if_neg hc]
    exact ha

/-- Concrete history entry used by the C8 states below. -/
def histEntry (n : Nat) : HistoryItem :=
  ⟨"h" ++ toString n, "list students", "t0", none, none⟩

/-- A console whose history already holds 10 entries; histEntry 9 is the
oldest. -/
def fullConsole : ConsoleState :=
  ⟨"", false, none, none, (List.range 10).map histEntry⟩

/-- C8 counterexample: with a full 10-entry buffer, re-running the
oldest entry evicts that very entry, so the original IS removed from
the history by the re-run. -/
theorem voice_run_eviction_counterexample :
    histEntry 9 ∈ fullConsole.history ∧
    histEntry 9 ∉ (runEntry (histEntry 9) "fresh" "t1" fullConsole).1.history := by
  decide

/-- C8 (amended): re-running a history entry creates a new entry with
the freshly generated id at the front and re-issues the stored text; no
surviving entry is mutated (each is literally an element of the old
history); the original survives whenever it was among the 9 newest
entries, and in particular always when the buffer held fewer than 10
entries — only the oldest entry of a full buffer is evicted. -/
theorem voice_run_appends_fresh_entry (s : ConsoleState) (h : HistoryItem)
    (newId now : String)
    (hload : s.loading = false)
    (hne : trimText h.text ≠ "") :
    ((runEntry h newId now s).1.history =
        ⟨newId, trimText h.text, now, none, none⟩ :: s.history.take 9) ∧
    ((runEntry h newId now s).2 = some (trimText h.text)) ∧
    (∀ g ∈ (runEntry h newId now s).1.history, g.id ≠ newId → g ∈ s.history) ∧
    (h ∈ s.history.take 9 → h ∈ (runEntry h newId now s).1.history) ∧
    (s.history.length < 10 → h ∈ s.history → h ∈ (runEntry h newId now s).1.history) := by
  have hrun : runEntry h newId now s = sendCommandStart newId now (some h.text) s := by
    unfold runEntry
    rw [if_neg (by rw [hload]; exact Bool.false_ne_true)]
  have hstart : (sendCommandStart newId now (some h.text) s).1 =
      { s with
          history := pushHistory ⟨newId, trimText h.text, now, none, none⟩ s.history
          loading := true
          error := none
          responseJson := none } := by
    simp only [sendCommandStart, Option.getD_some]
    rw [if_neg hne]
  have hhist : (runEntry h newId now s).1.history =
      (⟨newId, trimText h.text, now, none, none⟩ : HistoryItem) :: s.history.take 9 := by
    rw [hrun, hstart]
    exact pushHistory_eq_cons_take _ _
  have hreq : (runEntry h newId now s).2 = some (trimText h.text) := by
    rw [hrun]
    simp only [sendCommandStart, Option.getD_some]
    rw [if_neg hne]
  refine ⟨hhist, hreq, ?_, ?_, ?_⟩
  · intro g hg hgid
    rw [hhist] at hg
    rcases List.mem_cons.mp hg with rfl | htail
    · exact absurd rfl hgid
    · exact List.take_subset _ _ htail
  · intro hm
    rw [hhist]
    exact List.mem_cons_of_mem _ hm
  · intro hlen hm
    rw [hhist]
    refine List.mem_cons_of_mem _ ?_
    rw [List.take_of_length_le (by omega)]
    exact hm

/-- A console with a single history entry, used by the closed witness
below. -/
def oneEntryConsole : ConsoleState := ⟨"", false, none, none, [histEntry 0]⟩

theorem voice_run_appends_fresh_entry_witness :
    (runEntry (histEntry 0) "fresh" "t1" oneEntryConsole).1.history =
      ⟨"fresh", trimText "list students", "t1", none, none⟩ :: [histEntry 0] ∧
    histEntry 0 ∈ (runEntry (histEntry 0) "fresh" "t1" oneEntryConsole).1.history := by
  have h := voice_run_appends_fresh_entry oneEntryConsole (histEntry 0) "fresh" "t1"
    rfl (by decide)
  exact ⟨h.1, h.2.2.2.2 (by decide) (by decide)⟩

/-- C9: View never issues a request and never touches the history, the
error banner or the input text; on an entry with no stored response it
is a complete no-op (the displayed response stays as it was); otherwise
it re-displays exactly the stored response. -/
theorem voice_view_non_mutating (h : HistoryItem) (s : ConsoleState) :
    ((viewEntry h s).2 = none) ∧
    ((viewEntry h s).1.history = s.history) ∧
    ((viewEntry h s).1.error = s.error) ∧
    ((viewEntry h s).1.text = s.text) ∧
    (h.response = none → (viewEntry h s).1 = s) ∧
    (s.loading = false → ∀ resp, h.response = some resp →
        (viewEntry h s).1.responseJson = some resp) := by
  unfold viewEntry
  by_cases hc : (s.loading || h.response.isNone) = true
  · rw [if_pos hc]
    refine ⟨rfl, rfl, rfl, rfl, fun _ => rfl, ?_⟩
    intro hl resp hresp
    rw [hl, hresp] at hc
    simp at hc
  · rw [if_neg hc]
    refine ⟨rfl, rfl, rfl, rfl, ?_, ?_⟩
    · intro hresp
      rw [hresp] at hc
      simp at hc
    · intro _ resp hresp
      exact hresp

/-- A history entry with a stored response, used by the closed witness
below. -/
def respEntry : HistoryItem := ⟨"h9", "list students", "t0", some studentsResp, none⟩

theorem voice_view_non_mutating_witness :
    (viewEntry (histEntry 0) emptyConsole).1 = emptyConsole ∧
    (viewEntry (histEntry 0) emptyConsole).2 = none ∧
    (viewEntry respEntry emptyConsole).1.responseJson = some studentsResp ∧
    (viewEntry respEntry emptyConsole).1.history = emptyConsole.history := by
  have h1 := voice_view_non_mutating (histEntry 0) emptyConsole
  have h2 := voice_view_non_mutating respEntry emptyConsole
  exact ⟨h1.2.2.2.2.1 rfl, h1.1, h2.2.2.2.2.2 rfl studentsResp rfl, h2.2.1⟩

/-- C10: every submit with non-empty trimmed text clears the displayed
response before the request is issued; after a failure it is still
cleared (the previous response is not restored); and every entry other
than the new one is an unchanged element of the old history, so past
entries keep their stored responses. -/
theorem voice_error_keeps_response_cleared (s : ConsoleState) (ov : Option String)
    (newId now : String) (f : NetFailure)
    (hcmd : trimText (ov.getD s.text) ≠ "") :
    ((sendCommandStart newId now ov s).1.responseJson = none) ∧
    ((sendCommandSettle newId (.failure f)
        (sendCommandStart newId now ov s).1).responseJson = none) ∧
    (∀ g ∈ (sendCommandSettle newId (.failure f)
        (sendCommandStart newId now ov s).1).history,
      g.id ≠ newId → g ∈ s.history) := by
  have hstart : (sendCommandStart newId now ov s).1 =
      { s with
          history :=
            pushHistory ⟨newId, trimText (ov.getD s.text), now, none, none⟩ s.history
          loading := true
          error := none
          responseJson := none } := by
    simp only [sendCommandStart]
    rw [if_neg hcmd]
  have hclear : (sendCommandStart newId now ov s).1.responseJson = none := by
    rw [hstart]
  refine ⟨hclear, hclear, ?_⟩
  · intro g hg hgid
    have hg2 : g ∈ (sendCommandStart newId now ov s).1.history :=
      updateHistory_mem_of_ne newId _ _ g hg hgid
    have hh : (sendCommandStart newId now ov s).1.history =
        (⟨newId, trimText (ov.getD s.text), now, none, none⟩ : HistoryItem) ::
          s.history.take 9 := by
      rw [hstart]
      exact pushHistory_eq_cons_take _ _
    rw [hh] at hg2
    rcases List.mem_cons.mp hg2 with rfl | htail
    · exact absurd rfl hgid
    · exact List.take_subset _ _ htail

theorem voice_error_keeps_response_cleared_witness :
    (sendCommandSettle "a1" (.failure .noResponse)
        (sendCommandStart "a1" "t1" (some "list students") emptyConsole).1).responseJson =
      none := by
  have h := voice_error_keeps_response_cleared emptyConsole (some "list students")
    "a1" "t1" .noResponse (by decide)
  exact h.2.1
